import Mathlib

/-!
Shallow embedding of the file-backed gourmet-shop DocumentStore of this
repository, implemented in `src/tools/mcp_gourmet.py` (primary copy) and in
the earlier near-duplicate `src/tools/mcp-jason.py`.  The persisted state is a
JSON array of place records; every operation loads the whole array, works on
it in memory and (for mutating operations) writes the whole array back.  The
pure core of each HTTP handler is translated here as a function on the loaded
collection (`List Place`); the persistence step and the `asyncio.Lock` usage
are modelled explicitly where a claim is about them.
-/

namespace GourmetStore

/-- A single menu item: Python `MenuItem = RootModel[Dict[str, str]]`, a
mapping from dish name to price-as-string, modelled as an association list. -/
abbrev MenuItem := List (String × String)

/-- A menu: Python `List[MenuItem]`. -/
abbrev Menu := List MenuItem

/-- One stored record of the places file.  `create_place` builds it as an
`OrderedDict` with the keys in this order: `id` first, then the request
fields `name`, `type`, `specialty`, `menu` (mcp_gourmet.py lines 225-230). -/
structure Place where
  id : Int
  name : String
  type : String
  specialty : String
  menu : Option Menu
deriving DecidableEq

/-- Request body of create: pydantic model `NewPlace` (mcp_gourmet.py lines
57-71); `menu` is optional and defaults to `None`. -/
structure NewPlace where
  name : String
  type : String
  specialty : String
  menu : Option Menu
deriving DecidableEq

/-- Response model of `get_places`: pydantic model `PlaceResponse`
(mcp_gourmet.py lines 21-28).  It declares only `id`, `name`, `type`,
`specialty`; `PlaceResponse(**place)` ignores the stored record's extra
`menu` key, so list responses carry no menu. -/
structure PlaceResponse where
  id : Int
  name : String
  type : String
  specialty : String
deriving DecidableEq

/-- Error outcomes of the handlers, named after the spec's taxonomy (§7):
`duplicateName` is the HTTP 400 "Your place is repeated.", `notFound` the
HTTP 404s, `invalidParam` the HTTP 400 "... is required" parameter guards,
`malformedStorage` the `json.JSONDecodeError` path, `ioError` the generic
500 path. -/
inductive StoreErr where
  | duplicateName
  | notFound
  | invalidParam
  | malformedStorage
  | ioError
deriving DecidableEq

/-- Result values of `query_menu`: the menu payload (the JSON
object keyed "菜單") or the soft-fail status object (keyed "狀態"). -/
inductive QueryResult where
  | menu (m : Option Menu)
  | notRegistered
deriving DecidableEq

/-- The duplicate-name scan of `create_place` (mcp_gourmet.py lines 215-217):
iterate over the loaded records and report whether any has the requested
name (case-sensitive `==` on strings). -/
def nameExists : List Place → String → Bool
  | [], _ => false
  | p :: rest, n => if p.name = n then true else nameExists rest n

/-- The `last_id` computation of `create_place` (mcp_gourmet.py lines
219-222): the `id` of the LAST element of the loaded array
(`places_data[-1]["id"]`), or `0` when the array is empty.  Note this is the
last record's id, not the maximum id. -/
def lastId (c : List Place) : Int :=
  match c.getLast? with
  | some p => p.id
  | none => 0

/-- The `ordered_dict` built by `create_place` (mcp_gourmet.py lines
223-230): the new record, with `id := last_id + 1` followed by the request's
fields in declaration order. -/
def newRecord (c : List Place) (np : NewPlace) : Place :=
  { id := lastId c + 1, name := np.name, type := np.type,
    specialty := np.specialty, menu := np.menu }

/-- Pure core of `create_place` (mcp_gourmet.py lines 211-235, identically
mcp-jason.py lines 98-128): reject when any existing record carries the
requested name (HTTP 400, raised before any write), otherwise append the new
record built from `last_id + 1` and return the new collection (which the
handler then persists) together with the created record. -/
def create_place (c : List Place) (np : NewPlace) : Except StoreErr (List Place × Place) :=
  if nameExists c np.name then .error .duplicateName
  else .ok (c ++ [newRecord c np], newRecord c np)

/-- The search loop of `query_menu` in mcp_gourmet.py (lines 158-163):
`for place in places_data: if place["name"] == query_name: return menu
else: continue`, falling through to the "您尋找的餐廳未被登錄" status --
first-match lookup with a soft-fail default. -/
def queryLoop : List Place → String → QueryResult
  | [], _ => .notRegistered
  | p :: rest, n => if p.name = n then .menu p.menu else queryLoop rest n

/-- `query_menu` of mcp_gourmet.py (lines 151-163), including the
`if not query_name` guard (lines 154-155) that rejects the empty string with
HTTP 400 before the collection is consulted. -/
def query_menu (c : List Place) (query_name : String) : Except StoreErr QueryResult :=
  if query_name = "" then .error .invalidParam
  else .ok (queryLoop c query_name)

/-- `query_menu` of mcp-jason.py (lines 80-96).  Its loop body is
`if place.get("name") == query_name: return menu else: return notRegistered`
-- the else branch RETURNS, so only the FIRST record is ever inspected; an
empty collection falls through the loop to
`raise HTTPException(404, "Retrieving Menu Error.")` (line 94). -/
def query_menu_jason (c : List Place) (query_name : String) : Except StoreErr QueryResult :=
  if query_name = "" then .error .invalidParam
  else
    match c with
    | [] => .error .notFound
    | p :: _ => if p.name = query_name then .ok (.menu p.menu) else .ok .notRegistered

/-- The update loop of `update_menu` (mcp_gourmet.py lines 286-291): find the
first record with the requested name, set its `menu` key to the new menu and
break; `none` when no record matches (`found` stays `False`). -/
def updateFirst : List Place → String → Menu → Option (List Place)
  | [], _, _ => none
  | p :: rest, n, m =>
    if p.name = n then some ({ p with menu := some m } :: rest)
    else
      match updateFirst rest n m with
      | some rest2 => some (p :: rest2)
      | none => none

/-- Pure core of `update_menu` (mcp_gourmet.py lines 274-297): the
`if not place_name` guard (lines 278-279) rejects the empty string with
HTTP 400; otherwise replace the first matching record's entire `menu` field,
or fail with HTTP 404 "Place not found" when no record matches (in which
case the handler raises before reaching the write block, so nothing is
persisted). -/
def update_menu (c : List Place) (place_name : String) (updated_menu : Menu) :
    Except StoreErr (List Place) :=
  if place_name = "" then .error .invalidParam
  else
    match updateFirst c place_name updated_menu with
    | some c2 => .ok c2
    | none => .error .notFound

/-- The deletion loop of `delete_place` (mcp_gourmet.py lines 335-340):
delete the first record with the requested name and break; `none` when no
record matches. -/
def deleteFirst : List Place → String → Option (List Place)
  | [], _ => none
  | p :: rest, n =>
    if p.name = n then some rest
    else
      match deleteFirst rest n with
      | some rest2 => some (p :: rest2)
      | none => none

/-- Pure core of `delete_place` (mcp_gourmet.py lines 326-347): the
`if not place_name` guard (lines 329-330) rejects the empty string with
HTTP 400; otherwise remove the first matching record, or fail with HTTP 404
"Place not found" (raised before the write block, so nothing is persisted). -/
def delete_place (c : List Place) (place_name : String) : Except StoreErr (List Place) :=
  if place_name = "" then .error .invalidParam
  else
    match deleteFirst c place_name with
    | some c2 => .ok c2
    | none => .error .notFound

/-- `PlaceResponse(**place)` (mcp_gourmet.py line 124): keep the four
declared fields, drop the stored `menu`. -/
def toPlaceResponse (p : Place) : PlaceResponse :=
  { id := p.id, name := p.name, type := p.type, specialty := p.specialty }

/-- `get_places` (mcp_gourmet.py lines 109-127): load everything, project
each record through `PlaceResponse`, and -- only when the `type` query
parameter is truthy (`if type:`, line 125), i.e. present AND non-empty --
keep the records whose `type` equals it.  `None` and the empty string both
mean "no filter". -/
def get_places (data : List Place) (type? : Option String) : List PlaceResponse :=
  let places := data.map toPlaceResponse
  match type? with
  | none => places
  | some t => if t = "" then places else places.filter (fun place => decide (place.type = t))

/-- Persisted file contents after a `create_place` call: the handler writes
the new array only on the success path (mcp_gourmet.py lines 233-234 are
reached only when no exception was raised); on any error the function exits
before the write, leaving the file as loaded. -/
def persistAfterCreate (c : List Place) (np : NewPlace) : List Place :=
  match create_place c np with
  | .ok (c2, _) => c2
  | .error _ => c

/-- Persisted file contents after an `update_menu` call (write block at
mcp_gourmet.py lines 295-296, reached only when `found`). -/
def persistAfterUpdate (c : List Place) (place_name : String) (updated_menu : Menu) :
    List Place :=
  match update_menu c place_name updated_menu with
  | .ok c2 => c2
  | .error _ => c

/-- Persisted file contents after a `delete_place` call (write block at
mcp_gourmet.py lines 345-346, reached only when `found`). -/
def persistAfterDelete (c : List Place) (place_name : String) : List Place :=
  match delete_place c place_name with
  | .ok c2 => c2
  | .error _ => c

/-- Run a sequence of `create_place` calls, persisting after each, stopping
at the first failure. -/
def runCreates : List Place → List NewPlace → Except StoreErr (List Place)
  | c, [] => .ok c
  | c, np :: rest =>
    match create_place c np with
    | .ok (c2, _) => runCreates c2 rest
    | .error e => .error e

/-- Whether an `Except` result is a success. -/
def isOkE {ε α : Type} : Except ε α → Bool
  | .ok _ => true
  | .error _ => false

/-- The ids of the resulting collection of a `runCreates` run (empty on
failure). -/
def idsOf : Except StoreErr (List Place) → List Int
  | .ok c => c.map Place.id
  | .error _ => []

/-- The id assigned by a `create_place` result, if it succeeded. -/
def assignedId (r : Except StoreErr (List Place × Place)) : Option Int :=
  match r with
  | .ok (_, p) => some p.id
  | .error _ => none

/-- The maximum id of the collection, `0` when empty -- this is what the
spec says the new id is computed from ("max existing id, or 0 if empty").
Spec-side definition, for comparison with the code's `lastId`. -/
def maxId : List Place → Int
  | [] => 0
  | [p] => p.id
  | p :: q :: rest => max p.id (maxId (q :: rest))

/-- The ids `base + 1, base + 2, ..., base + n`: what a run of `n` creates
appends after a collection whose last id is `base`. -/
def idSeq (base : Int) (n : Nat) : List Int :=
  (List.range n).map fun i : Nat => base + 1 + (i : Int)

/-- Whether the ids of the collection are strictly increasing from head to
last -- true of every collection the store itself produces from the empty
file, since creation appends `last_id + 1` and deletion preserves order. -/
def idsIncreasing : List Place → Bool
  | [] => true
  | [_] => true
  | p :: q :: rest => decide (p.id < q.id) && idsIncreasing (q :: rest)

deriving instance DecidableEq for Except

/-- State of the single process-wide `asyncio.Lock` (`file_lock`,
mcp_gourmet.py line 81). -/
structure LockState where
  locked : Bool
deriving DecidableEq

/-- `await file_lock.acquire()` (mcp_gourmet.py line 97): when the caller
proceeds past this point the lock is held. -/
def acquireLock (_ : LockState) : LockState :=
  { locked := true }

/-- `file_lock.release()` (mcp_gourmet.py line 102). -/
def releaseLock (_ : LockState) : LockState :=
  { locked := false }

/-- Python `try: ... finally: handler` around a lock-state-threaded
computation: the handler runs after the body no matter whether the body
produced a value or an exception, and the body's outcome is then
propagated. -/
def tryFinally {α : Type} (body : LockState → LockState × Except StoreErr α)
    (handler : LockState → LockState) (s : LockState) : LockState × Except StoreErr α :=
  match body s with
  | (s2, r) => (handler s2, r)

/-- The `locked_file_operation` context manager (mcp_gourmet.py lines
95-102, identically mcp-jason.py lines 62-69): acquire the lock, then inside
a `try`/`finally` open the file (which may fail with an I/O error) and yield
it to the guarded body (which may succeed, soft-fail with a status value, or
raise, e.g. on unparseable JSON); the `finally` releases the lock.
`openResult` is the outcome of `open(places_path, mode)`, `body` the guarded
block run on the opened file. -/
def locked_file_operation {α : Type} (openResult : Except StoreErr String)
    (body : String → Except StoreErr α) (s : LockState) : LockState × Except StoreErr α :=
  tryFinally
    (fun s2 =>
      match openResult with
      | .error e => (s2, .error e)
      | .ok contents => (s2, body contents))
    releaseLock
    (acquireLock s)

/-- Where a `create_place` request stands.  The handler body (mcp_gourmet.py
lines 211-235) consists of two separate `async with locked_file_operation`
blocks: the read block (lines 212-213) and the write block (lines 233-234).
The lock is released when the read block exits, BEFORE the duplicate check,
id computation and append (lines 214-232), and re-acquired for the write:
`readDone snapshot` is a request that holds only its in-memory snapshot of
the file, with the lock free. -/
inductive CreatePhase where
  | ready
  | readDone (snapshot : List Place)
  | finished (result : Except StoreErr Place)
deriving DecidableEq

/-- One in-flight `create_place` request: its parsed body and its phase. -/
structure CreateTask where
  input : NewPlace
  phase : CreatePhase
deriving DecidableEq

/-- The whole service: the lock, the places file, and the in-flight
`create_place` requests.  Concurrency model per spec §5: requests are
cooperatively scheduled and may suspend at the I/O boundaries, i.e. between
the read block and the write block of the handler; each
`locked_file_operation` block itself runs without interleaving. -/
structure SysState where
  lockHeld : Bool
  file : List Place
  tasks : List CreateTask
deriving DecidableEq

/-- A scheduling choice: which request executes which of its two
`locked_file_operation` blocks next. -/
inductive SchedStep where
  | readSection (i : Nat)
  | writeSection (i : Nat)
deriving DecidableEq

/-- Small-step semantics of concurrent `create_place` requests, faithful to
the handler's structure.  `readSection i`: request `i` (still `ready`) runs
lines 212-213 -- acquire, `json.load`, release -- ending with the lock free
again and a private snapshot.  `writeSection i`: request `i` (at `readDone`)
runs lines 214-234 on its SNAPSHOT -- duplicate check, `last_id + 1`, append
-- and, on success, acquires the lock and overwrites the file with the
collection derived from that snapshot (on the duplicate error it raises
before the write block, leaving the file as is).  Either step requires the
lock to be free at its start, since `await file_lock.acquire()` would block
otherwise; `none` means the scheduling choice is not enabled. -/
def stepCreate (s : SysState) : SchedStep → Option SysState
  | .readSection i =>
    match s.tasks.get? i with
    | some t =>
      match t.phase with
      | .ready =>
        if s.lockHeld then none
        else some { s with tasks := s.tasks.set i { t with phase := .readDone s.file } }
      | _ => none
    | none => none
  | .writeSection i =>
    match s.tasks.get? i with
    | some t =>
      match t.phase with
      | .readDone snap =>
        if s.lockHeld then none
        else
          match create_place snap t.input with
          | .error e =>
            some { s with tasks := s.tasks.set i { t with phase := .finished (.error e) } }
          | .ok (c2, r) =>
            some { s with file := c2,
                          tasks := s.tasks.set i { t with phase := .finished (.ok r) } }
      | _ => none
    | none => none

/-- Run a schedule: execute the scheduling choices in order; `none` if any
choice is not enabled. -/
def runSched : SysState → List SchedStep → Option SysState
  | s, [] => some s
  | s, st :: rest =>
    match stepCreate s st with
    | some s2 => runSched s2 rest
    | none => none

/-- Concrete create request "A". -/
def npA : NewPlace :=
  { name := "A", type := "food", specialty := "a", menu := none }

/-- Concrete create request "B". -/
def npB : NewPlace :=
  { name := "B", type := "food", specialty := "b", menu := none }

/-- Concrete create request "C". -/
def npC : NewPlace :=
  { name := "C", type := "food", specialty := "c", menu := none }

/-- A second create request reusing the name "A". -/
def npA2 : NewPlace :=
  { name := "A", type := "drink", specialty := "z", menu := none }

/-- The record `create_place [] npA` produces. -/
def recA : Place :=
  { id := 1, name := "A", type := "food", specialty := "a", menu := none }

/-- The record `create_place [recA] npB` produces. -/
def recB : Place :=
  { id := 2, name := "B", type := "food", specialty := "b", menu := none }

/-- The record `create_place [recA] npC` produces -- note it reuses id 2. -/
def recC : Place :=
  { id := 2, name := "C", type := "food", specialty := "c", menu := none }

/-- A well-formed collection state (distinct ids, distinct names) whose ids
are NOT in increasing order: the last id (1) is not the maximum id (2). -/
def cUnsorted : List Place :=
  [{ id := 2, name := "A", type := "food", specialty := "x", menu := none },
   { id := 1, name := "B", type := "food", specialty := "y", menu := none }]

/-- A stored record carrying a non-empty menu. -/
def p8a : Place :=
  { id := 1, name := "A", type := "food", specialty := "x",
    menu := some [[("rice", "100")]] }

/-- Identical to `p8a` except that it has no menu. -/
def p8b : Place :=
  { id := 1, name := "A", type := "food", specialty := "x", menu := none }

/-- A stored record of type "drink". -/
def p8c : Place :=
  { id := 2, name := "B", type := "drink", specialty := "y", menu := none }

/-- Second record of a two-record collection, carrying a menu. -/
def p6b : Place :=
  { id := 2, name := "B", type := "food", specialty := "y",
    menu := some [[("tea", "50")]] }

/-- A record whose name is the empty string. -/
def pEmptyName : Place :=
  { id := 1, name := "", type := "food", specialty := "x",
    menu := some [[("rice", "100")]] }

/-- Initial state for two concurrent creates against an empty file. -/
def c1_init : SysState :=
  { lockHeld := false, file := [],
    tasks := [{ input := npA, phase := .ready }, { input := npB, phase := .ready }] }

/-- The duplicate scan succeeds exactly when some loaded record carries the
queried name. -/
theorem nameExists_iff (n : String) (c : List Place) :
    nameExists c n = true ↔ ∃ p ∈ c, p.name = n := by
  induction c with
  | nil => simp [nameExists]
  | cons a l ih =>
    by_cases ha : a.name = n
    · simp [nameExists, ha]
    · simp [nameExists, ha, ih]

/-- A create whose name is fresh takes the success path: it appends exactly
the record built from `last_id + 1`. -/
theorem create_place_fresh (c : List Place) (np : NewPlace)
    (h : nameExists c np.name = false) :
    create_place c np = .ok (c ++ [newRecord c np], newRecord c np) := by
  simp [create_place, h]

/-- Appending a record makes it the one `last_id` is read from. -/
theorem lastId_concat (c : List Place) (p : Place) : lastId (c ++ [p]) = p.id := by
  simp [lastId, List.getLast?_concat]

/-- The head's id is bounded by the collection's maximal id. -/
theorem head_le_maxId : ∀ (q : Place) (rest : List Place), q.id ≤ maxId (q :: rest)
  | _, [] => le_refl _
  | _, _ :: _ => le_max_left _ _

/-- On a collection whose ids strictly increase from head to last -- every
collection the store itself builds -- the last id IS the maximal id. -/
theorem lastId_eq_maxId : ∀ c : List Place, idsIncreasing c = true → lastId c = maxId c
  | [] => fun _ => rfl
  | [p] => fun _ => by simp [lastId, maxId]
  | p :: q :: rest => fun h => by
    rw [idsIncreasing, Bool.and_eq_true, decide_eq_true_iff] at h
    obtain ⟨hlt, hrest⟩ := h
    have hle : p.id ≤ maxId (q :: rest) :=
      le_of_lt (lt_of_lt_of_le hlt (head_le_maxId q rest))
    calc lastId (p :: q :: rest) = lastId (q :: rest) := by
          simp [lastId, List.getLast?_cons_cons]
      _ = maxId (q :: rest) := lastId_eq_maxId (q :: rest) hrest
      _ = maxId (p :: q :: rest) := by
          rw [maxId, max_eq_right hle]

/-- When no record carries the name, the update loop finds nothing. -/
theorem updateFirst_none (n : String) (m : Menu) :
    ∀ c : List Place, (∀ p ∈ c, p.name ≠ n) → updateFirst c n m = none := by
  intro c
  induction c with
  | nil => intro _; rfl
  | cons a l ih =>
    intro h
    have ha : a.name ≠ n := h a (List.mem_cons_self a l)
    have hl : updateFirst l n m = none := ih fun p hp => h p (List.mem_cons_of_mem a hp)
    simp [updateFirst, ha, hl]

/-- When no record carries the name, the deletion loop finds nothing. -/
theorem deleteFirst_none (n : String) :
    ∀ c : List Place, (∀ p ∈ c, p.name ≠ n) → deleteFirst c n = none := by
  intro c
  induction c with
  | nil => intro _; rfl
  | cons a l ih =>
    intro h
    have ha : a.name ≠ n := h a (List.mem_cons_self a l)
    have hl : deleteFirst l n = none := ih fun p hp => h p (List.mem_cons_of_mem a hp)
    simp [deleteFirst, ha, hl]

/-- The update loop splits the collection at the FIRST record with the
queried name and replaces exactly that record's `menu` field. -/
theorem updateFirst_spec (n : String) (m : Menu) :
    ∀ c : List Place, (∃ p ∈ c, p.name = n) →
      ∃ pre p post, c = pre ++ p :: post ∧ (∀ q ∈ pre, q.name ≠ n) ∧ p.name = n ∧
        updateFirst c n m = some (pre ++ { p with menu := some m } :: post) := by
  intro c
  induction c with
  | nil => intro h; simp at h
  | cons a l ih =>
    intro h
    by_cases ha : a.name = n
    · refine ⟨[], a, l, rfl, by simp, ha, ?_⟩
      simp [updateFirst, ha]
    · have h2 : ∃ p ∈ l, p.name = n := by
        obtain ⟨p, hp, hpn⟩ := h
        rcases List.mem_cons.mp hp with heq | hpl
        · exact absurd (heq ▸ hpn) ha
        · exact ⟨p, hpl, hpn⟩
      obtain ⟨pre, p, post, hc, hpre, hpn, hupd⟩ := ih h2
      refine ⟨a :: pre, p, post, by rw [hc, List.cons_append], ?_, hpn, ?_⟩
      · intro q hq
        rcases List.mem_cons.mp hq with heq | hq2
        · exact heq ▸ ha
        · exact hpre q hq2
      · simp [updateFirst, ha, hupd]

/-- Peeling one id off the id sequence. -/
theorem idSeq_succ (base : Int) (n : Nat) :
    idSeq base (n + 1) = (base + 1) :: idSeq (base + 1) n := by
  rw [idSeq, List.range_succ_eq_map, List.map_cons, List.map_map]
  congr 1
  · simp
  · refine List.map_congr_left fun i _ => ?_
    simp only [Function.comp_apply, Nat.succ_eq_add_one, idSeq]
    push_cast
    ring

/-- Shape of a run of creates whose names are fresh and pairwise distinct:
every create succeeds, and the appended records receive the ids
`lastId c + 1, lastId c + 2, ...` in order. -/
theorem runCreates_spec (nps : List NewPlace) :
    ∀ c : List Place,
      (c.map Place.name ++ nps.map NewPlace.name).Nodup →
      ∃ c2, runCreates c nps = .ok c2 ∧
        c2.map Place.id = c.map Place.id ++ idSeq (lastId c) nps.length := by
  induction nps with
  | nil =>
    intro c _
    exact ⟨c, rfl, by simp [idSeq]⟩
  | cons np rest ih =>
    intro c h
    have hnotin : np.name ∉ c.map Place.name := by
      rw [List.nodup_append] at h
      intro hmem
      exact h.2.2 hmem (by simp)
    have hfresh : nameExists c np.name = false := by
      rw [Bool.eq_false_iff]
      intro htrue
      obtain ⟨p, hp, hpn⟩ := (nameExists_iff np.name c).mp htrue
      exact hnotin (hpn ▸ List.mem_map_of_mem Place.name hp)
    have hstep : runCreates c (np :: rest) = runCreates (c ++ [newRecord c np]) rest := by
      simp [runCreates, create_place_fresh c np hfresh]
    have hnodup2 : ((c ++ [newRecord c np]).map Place.name ++ rest.map NewPlace.name).Nodup := by
      have hshape : (c ++ [newRecord c np]).map Place.name ++ rest.map NewPlace.name
          = c.map Place.name ++ (np :: rest).map NewPlace.name := by
        simp [newRecord, List.append_assoc]
      rw [hshape]
      exact h
    obtain ⟨c2, hrun, hids⟩ := ih (c ++ [newRecord c np]) hnodup2
    refine ⟨c2, by rw [hstep]; exact hrun, ?_⟩
    rw [hids, lastId_concat]
    have hnewid : (newRecord c np).id = lastId c + 1 := rfl
    rw [hnewid, List.map_append, List.append_assoc, List.length_cons, idSeq_succ]
    simp [hnewid]

/-- The projection of stored records through `PlaceResponse` commutes with
the type filter, because the projection keeps the `type` field. -/
theorem filter_map_toPlaceResponse (c : List Place) (t : String) :
    (c.map toPlaceResponse).filter (fun place => decide (place.type = t))
      = (c.filter fun p => decide (p.type = t)).map toPlaceResponse := by
  induction c with
  | nil => rfl
  | cons a l ih =>
    by_cases ha : a.type = t
    · simp only [List.map_cons, List.filter_cons]
      have hresp : (toPlaceResponse a).type = a.type := rfl
      rw [hresp]
      simp [ha, ih]
    · simp only [List.map_cons, List.filter_cons]
      have hresp : (toPlaceResponse a).type = a.type := rfl
      rw [hresp]
      simp [ha, ih]

/-- Claim C9: whenever a handler enters `locked_file_operation`, the lock is
released again on every exit path of the guarded section -- whether the
`open` fails (storage I/O error), the guarded body raises (e.g. unparseable
JSON), the body computes a soft-fail value, or everything succeeds -- and
the body's outcome (value or error) is propagated to the caller.  The
`finally` of mcp_gourmet.py lines 101-102 guarantees this. -/
theorem lock_released_on_every_path {α : Type} (openResult : Except StoreErr String)
    (body : String → Except StoreErr α) (s : LockState) :
    (locked_file_operation openResult body s).1.locked = false ∧
    (locked_file_operation openResult body s).2
      = (match openResult with
         | .error e => .error e
         | .ok contents => body contents) := by
  cases openResult <;>
    exact ⟨rfl, rfl⟩

/-- Claim C1 (evidence of the code bug): the lock is NOT held across the
whole read-modify-write sequence of `create_place` -- after the read block
of request 0 completes, the lock is already free while the request is still
mid-operation (first conjunct).  Consequently the schedule read(0), read(1),
write(0), write(1) is enabled for two concurrent creates with distinct names
"A" and "B" against the empty file, both requests complete "successfully",
both are assigned id 1, and the final file holds a single record (request
0's create is lost), not two records with ids 1 and 2 (second conjunct). -/
theorem create_lock_not_held_across_rmw :
    runSched c1_init [.readSection 0]
      = some { lockHeld := false, file := [],
               tasks := [{ input := npA, phase := .readDone [] },
                         { input := npB, phase := .ready }] } ∧
    runSched c1_init [.readSection 0, .readSection 1, .writeSection 0, .writeSection 1]
      = some { lockHeld := false,
               file := [{ id := 1, name := "B", type := "food", specialty := "b",
                          menu := none }],
               tasks := [{ input := npA,
                           phase := .finished (.ok { id := 1, name := "A", type := "food",
                                                     specialty := "a", menu := none }) },
                         { input := npB,
                           phase := .finished (.ok { id := 1, name := "B", type := "food",
                                                     specialty := "b", menu := none }) }] } ∧
    npA.name ≠ npB.name := by
  refine ⟨by decide, by decide, by decide⟩

/-- Claim C2 (counterexample): on the well-formed collection `cUnsorted`
(distinct ids 2 and 1, in that order), create assigns the id
`last id + 1 = 2` -- which even collides with an existing id -- whereas
`(max existing id) + 1 = 3`.  The code reads `places_data[-1]["id"]`, not
the maximum. -/
theorem create_id_not_max_counterexample :
    assignedId (create_place cUnsorted npC) = some 2 ∧
    maxId cUnsorted + 1 = 3 ∧ (2 : Int) ≠ 3 := by
  refine ⟨by decide, by decide, by decide⟩

/-- Claim C2 (amended): for every collection state and every input whose
name matches no existing record, create succeeds and assigns the new record
the id `(id of the LAST record, or 0 if the collection is empty) + 1`; on
collections whose ids are strictly increasing in order -- in particular
every collection the store itself produces -- this coincides with
`(max existing id, or 0 if empty) + 1`. -/
theorem create_id_last_plus_one (c : List Place) (np : NewPlace)
    (h : ∀ p ∈ c, p.name ≠ np.name) :
    create_place c np = .ok (c ++ [newRecord c np], newRecord c np) ∧
    (newRecord c np).id = lastId c + 1 ∧
    (idsIncreasing c = true → (newRecord c np).id = maxId c + 1) := by
  have hfresh : nameExists c np.name = false := by
    rw [Bool.eq_false_iff]
    intro htrue
    obtain ⟨p, hp, hpn⟩ := (nameExists_iff np.name c).mp htrue
    exact h p hp hpn
  refine ⟨create_place_fresh c np hfresh, rfl, fun hsorted => ?_⟩
  show lastId c + 1 = maxId c + 1
  rw [lastId_eq_maxId c hsorted]

/-- Witness for `create_id_last_plus_one` at a concrete input. -/
theorem create_id_last_plus_one_witness :
    (∀ p ∈ [recA], p.name ≠ npB.name) ∧
    (create_place [recA] npB = .ok ([recA] ++ [newRecord [recA] npB], newRecord [recA] npB) ∧
     (newRecord [recA] npB).id = lastId [recA] + 1 ∧
     (idsIncreasing [recA] = true → (newRecord [recA] npB).id = maxId [recA] + 1)) :=
  ⟨by decide, create_id_last_plus_one [recA] npB (by decide)⟩

/-- Claim C3: starting from the empty collection, every sequence of creates
with pairwise-distinct names succeeds throughout, and the ids of the
resulting records (which are exactly the created records, in creation order)
are pairwise distinct, strictly increasing in creation order, the first
being 1. -/
theorem create_ids_distinct_increasing (nps : List NewPlace)
    (h : (nps.map NewPlace.name).Nodup) :
    isOkE (runCreates [] nps) = true ∧
    (idsOf (runCreates [] nps)).Pairwise (· < ·) ∧
    (idsOf (runCreates [] nps)).Nodup ∧
    (nps ≠ [] → (idsOf (runCreates [] nps)).head? = some 1) := by
  obtain ⟨c2, hrun, hids⟩ := runCreates_spec nps [] (by simpa using h)
  have hids2 : c2.map Place.id = idSeq 0 nps.length := by
    simpa [lastId] using hids
  rw [hrun]
  have hOf : idsOf (Except.ok c2 : Except StoreErr (List Place)) = c2.map Place.id := rfl
  have hpw : (c2.map Place.id).Pairwise (· < ·) := by
    rw [hids2, idSeq, List.pairwise_map]
    exact (List.pairwise_lt_range nps.length).imp (fun hab => by omega)
  refine ⟨rfl, by rw [hOf]; exact hpw, by rw [hOf]; exact hpw.imp ne_of_lt, fun hne => ?_⟩
  rw [hOf, hids2]
  cases nps with
  | nil => exact absurd rfl hne
  | cons a l =>
    rw [List.length_cons, idSeq_succ]
    norm_num

/-- Witness for `create_ids_distinct_increasing` at a concrete input. -/
theorem create_ids_distinct_increasing_witness :
    (([npA, npB].map NewPlace.name).Nodup) ∧
    (isOkE (runCreates [] [npA, npB]) = true ∧
     (idsOf (runCreates [] [npA, npB])).Pairwise (· < ·) ∧
     (idsOf (runCreates [] [npA, npB])).Nodup ∧
     ([npA, npB] ≠ ([] : List NewPlace) → (idsOf (runCreates [] [npA, npB])).head? = some 1)) :=
  ⟨by decide, create_ids_distinct_increasing [npA, npB] (by decide)⟩

/-- Claim C4: create with a name equal (case-sensitive exact match) to the
name of any existing record fails with the duplicate-name error, raised
before any write, and the persisted collection is unchanged. -/
theorem create_duplicate_rejected (c : List Place) (np : NewPlace)
    (h : ∃ p ∈ c, p.name = np.name) :
    create_place c np = .error .duplicateName ∧ persistAfterCreate c np = c := by
  have hex : nameExists c np.name = true := (nameExists_iff np.name c).mpr h
  constructor
  · simp [create_place, hex]
  · simp [persistAfterCreate, create_place, hex]

/-- Witness for `create_duplicate_rejected` at a concrete input. -/
theorem create_duplicate_rejected_witness :
    (∃ p ∈ [recA], p.name = npA2.name) ∧
    (create_place [recA] npA2 = .error .duplicateName ∧
     persistAfterCreate [recA] npA2 = [recA]) :=
  ⟨by decide, create_duplicate_rejected [recA] npA2 (by decide)⟩

/-- Claim C5 (counterexample): the empty string is a name that matches no
record of `[recA]`, yet `update_menu` and `delete_place` report the
parameter-validation error ("place_name is required", HTTP 400), not the
not-found error -- the claim's "every name" is too broad. -/
theorem notfound_empty_name_counterexample :
    (∀ p ∈ [recA], p.name ≠ "") ∧
    update_menu [recA] "" [] = .error .invalidParam ∧
    delete_place [recA] "" = .error .invalidParam ∧
    (Except.error StoreErr.invalidParam : Except StoreErr (List Place))
      ≠ .error .notFound := by
  refine ⟨by decide, by decide, by decide, by decide⟩

/-- Claim C5 (amended): for every collection state and every NON-EMPTY name
that matches no record, both delete and updateMenu report the not-found
error and the persisted collection is unchanged (nothing is written, since
the handler raises before its write block). -/
theorem notfound_nondestructive (c : List Place) (n : String) (m : Menu)
    (hn : n ≠ "") (h : ∀ p ∈ c, p.name ≠ n) :
    update_menu c n m = .error .notFound ∧
    delete_place c n = .error .notFound ∧
    persistAfterUpdate c n m = c ∧
    persistAfterDelete c n = c := by
  have hu := updateFirst_none n m c h
  have hd := deleteFirst_none n c h
  refine ⟨?_, ?_, ?_, ?_⟩ <;>
    simp [update_menu, delete_place, persistAfterUpdate, persistAfterDelete, hn, hu, hd]

/-- Witness for `notfound_nondestructive` at a concrete input. -/
theorem notfound_nondestructive_witness :
    (("Z" : String) ≠ "" ∧ ∀ p ∈ [recA], p.name ≠ "Z") ∧
    (update_menu [recA] "Z" [] = .error .notFound ∧
     delete_place [recA] "Z" = .error .notFound ∧
     persistAfterUpdate [recA] "Z" [] = [recA] ∧
     persistAfterDelete [recA] "Z" = [recA]) :=
  ⟨⟨by decide, by decide⟩, notfound_nondestructive [recA] "Z" [] (by decide) (by decide)⟩

/-- Claim C6 (evidence of the code bug in mcp-jason.py): on the collection
`[recA, p6b]` and query "B", the mcp_gourmet.py implementation returns the
menu of the first (and only) record named "B" -- the second record -- while
the mcp-jason.py implementation returns the "not registered" status, because
its loop body returns on the FIRST record instead of continuing the scan. -/
theorem query_menu_first_match_divergence :
    query_menu [recA, p6b] "B" = .ok (.menu p6b.menu) ∧
    query_menu_jason [recA, p6b] "B" = .ok .notRegistered ∧
    p6b.name = "B" := by
  refine ⟨by decide, by decide, by decide⟩

/-- Claim C7 (counterexample): a collection can contain a record whose name
is the empty string; updateMenu with that name is rejected by the
`place_name is required` guard (HTTP 400) and replaces nothing -- the
record's prior menu stands and nothing is persisted -- so the claim's
"every collection state containing a record with the given name" is too
broad. -/
theorem update_menu_empty_name_counterexample :
    (∃ p ∈ [pEmptyName], p.name = "") ∧
    update_menu [pEmptyName] "" [[("soup", "30")]] = .error .invalidParam ∧
    persistAfterUpdate [pEmptyName] "" [[("soup", "30")]] = [pEmptyName] ∧
    pEmptyName.menu = some [[("rice", "100")]] := by
  refine ⟨by decide, by decide, by decide, by decide⟩

/-- Claim C7 (amended): for every collection state containing a record with
the given NON-EMPTY name, updateMenu replaces the entire `menu` field of the
first such record with the supplied menu (full replacement, never a merge),
leaves that record's other fields and every other record unchanged, and
persists the resulting full collection. -/
theorem update_menu_replaces (c : List Place) (n : String) (m : Menu)
    (hn : n ≠ "") (h : ∃ p ∈ c, p.name = n) :
    ∃ pre p post,
      c = pre ++ p :: post ∧ (∀ q ∈ pre, q.name ≠ n) ∧ p.name = n ∧
      update_menu c n m = .ok (pre ++ { p with menu := some m } :: post) ∧
      persistAfterUpdate c n m = pre ++ { p with menu := some m } :: post := by
  obtain ⟨pre, p, post, hc, hpre, hpn, hupd⟩ := updateFirst_spec n m c h
  refine ⟨pre, p, post, hc, hpre, hpn, ?_, ?_⟩
  · simp [update_menu, hn, hupd]
  · simp [persistAfterUpdate, update_menu, hn, hupd]

/-- Witness for `update_menu_replaces` at a concrete input. -/
theorem update_menu_replaces_witness :
    (("B" : String) ≠ "" ∧ ∃ p ∈ [recA, p6b], p.name = "B") ∧
    (∃ pre p post,
      [recA, p6b] = pre ++ p :: post ∧ (∀ q ∈ pre, q.name ≠ "B") ∧ p.name = "B" ∧
      update_menu [recA, p6b] "B" [[("soup", "30")]]
        = .ok (pre ++ { p with menu := some [[("soup", "30")]] } :: post) ∧
      persistAfterUpdate [recA, p6b] "B" [[("soup", "30")]]
        = pre ++ { p with menu := some [[("soup", "30")]] } :: post) :=
  ⟨⟨by decide, by decide⟩,
   update_menu_replaces [recA, p6b] "B" [[("soup", "30")]] (by decide) (by decide)⟩

/-- Claim C8 (counterexample): two stored collections that differ only in a
record's menu produce identical list responses, so the returned records
cannot carry the stored `menu` field (the `PlaceResponse` model drops it);
and the empty-string filter is treated as "no filter" (Python truthiness),
returning even records whose `type` differs from it. -/
theorem get_places_drops_menu_counterexample :
    p8a ≠ p8b ∧
    get_places [p8a] none = get_places [p8b] none ∧
    get_places [p8a, p8c] (some "") = [toPlaceResponse p8a, toPlaceResponse p8c] ∧
    p8c.type ≠ "" := by
  refine ⟨by decide, by decide, by decide, by decide⟩

/-- Claim C8 (amended): list with no filter (or the falsy empty-string
filter) returns all records and list with a non-empty filterType returns
exactly the records whose `type` equals it (exact match), each record
projected to its `id`, `name`, `type`, `specialty` fields (the stored `menu`
is not part of list responses); an empty result is an empty sequence, not an
error. -/
theorem get_places_characterization (c : List Place) (t : String) (ht : t ≠ "") :
    get_places c none = c.map toPlaceResponse ∧
    get_places c (some t) = (c.filter fun p => decide (p.type = t)).map toPlaceResponse ∧
    get_places ([] : List Place) (some t) = [] := by
  refine ⟨rfl, ?_, by simp [get_places]⟩
  rw [get_places]
  simp only [if_neg ht]
  rw [filter_map_toPlaceResponse]

/-- Witness for `get_places_characterization` at a concrete input. -/
theorem get_places_characterization_witness :
    (("food" : String) ≠ "") ∧
    (get_places [p8a, p8c] none = [p8a, p8c].map toPlaceResponse ∧
     get_places [p8a, p8c] (some "food")
       = ([p8a, p8c].filter fun p => decide (p.type = "food")).map toPlaceResponse ∧
     get_places ([] : List Place) (some "food") = []) :=
  ⟨by decide, get_places_characterization [p8a, p8c] "food" (by decide)⟩

/-- Claim C10: ids of deleted records are reused.  From the empty
collection: create "A" (id 1), create "B" (id 2), delete "B", then create
"C" -- and "C" receives id 2, the id "B" previously held, because the new id
is computed from the id of the current last record only. -/
theorem deleted_id_reused :
    create_place [] npA = .ok ([recA], recA) ∧
    create_place [recA] npB = .ok ([recA, recB], recB) ∧
    delete_place [recA, recB] "B" = .ok [recA] ∧
    create_place [recA] npC = .ok ([recA, recC], recC) ∧
    recC.id = recB.id := by
  refine ⟨by decide, by decide, by decide, by decide, by decide⟩

end GourmetStore
